import Mathlib

/-
Verification of the paper-summarizer core pipeline: a shallow embedding of
summarizer/pipeline.py, summarizer/llm.py, summarizer/models.py and
summarizer/parser.py, together with theorems about the embedded code.

Python dictionaries are modelled as ordered association lists over PyVal
(the subset of Python values that flows through the decoded LLM payloads);
in-place dictionary mutation becomes a functional update that preserves the
entry position, matching CPython dict semantics.
-/

namespace PaperSummarizer

/-- Model of the Python values that appear in decoded LLM payloads.
Note that in Python a bool is an instance of int; helper predicates below
reproduce that quirk where the source relies on isinstance checks. -/
inductive PyVal where
  | pyNone
  | pyBool (b : Bool)
  | pyInt (n : Int)
  | pyStr (s : String)
  | pyList (xs : List PyVal)
  | pyDict (entries : List (String × PyVal))

/-- A decoded payload, as the source annotates it: a Python dict. -/
abbrev PyDict := List (String × PyVal)

/-- Model of a pathlib.Path restricted to the two attributes the pipeline
reads: the final component (name) and the final component without its
extension (stem). -/
structure PdfPath where
  name : String
  stem : String
deriving DecidableEq, Repr

/-- Python dict.get with default None: first entry with the key, else None. -/
def dictGet (entries : PyDict) (key : String) : PyVal :=
  match entries.find? (fun e => e.1 = key) with
  | some e => e.2
  | none => .pyNone

/-- Python dict item assignment: replace in place when the key is present
(keeping its position, as CPython does), else append a new entry. -/
def dictSet (entries : PyDict) (key : String) (v : PyVal) : PyDict :=
  if entries.any (fun e => e.1 = key) then
    entries.map (fun e => if e.1 = key then (key, v) else e)
  else
    entries ++ [(key, v)]

/-- Python isinstance(x, int): true for int and also for bool. -/
def isPyInt : PyVal → Bool
  | .pyInt _ => true
  | .pyBool _ => true
  | _ => false

/-- Python str.lower on one character, restricted to ASCII (the strings the
pipeline manipulates are ASCII). -/
def pyCharLower (c : Char) : Char :=
  if 65 ≤ c.toNat ∧ c.toNat ≤ 90 then Char.ofNat (c.toNat + 32) else c

/-- Python str.lower over a character list. -/
def pyLowerList (cs : List Char) : List Char := cs.map pyCharLower

/-- Python str.lower over a string. -/
def pyLower (s : String) : String := String.mk (pyLowerList s.data)

/-- Whitespace characters stripped by Python str.strip and matched by the
regex class backslash-s (ASCII part). -/
def isPySpace (c : Char) : Bool :=
  c = ' ' ∨ c = '\t' ∨ c = '\n' ∨ c = '\r' ∨ c = '\x0b' ∨ c = '\x0c'

/-- Python str.strip: drop whitespace from both ends. -/
def pyStrip (s : String) : String :=
  String.mk (((s.data.dropWhile isPySpace).reverse.dropWhile isPySpace).reverse)

/-- ASCII decimal digit, as matched by the regex class backslash-d. -/
def isAsciiDigit (c : Char) : Bool := 48 ≤ c.toNat ∧ c.toNat ≤ 57

/-- ASCII letter, as matched by the regex class [A-Za-z]. -/
def isAsciiAlpha (c : Char) : Bool :=
  (65 ≤ c.toNat ∧ c.toNat ≤ 90) ∨ (97 ≤ c.toNat ∧ c.toNat ≤ 122)

/-- ASCII letter or digit, as matched by the regex class [A-Za-z0-9]. -/
def isAsciiAlnum (c : Char) : Bool := isAsciiDigit c || isAsciiAlpha c

/-- Lowercase ASCII letter, as matched by the regex class [a-z]. -/
def isLowerAlpha (c : Char) : Bool := 97 ≤ c.toNat ∧ c.toNat ≤ 122

/-- Lowercase ASCII letter or digit, as matched by [a-z0-9]. -/
def isLowerAlnum (c : Char) : Bool := isAsciiDigit c || isLowerAlpha c

/-- Full match of the citation-key regex fullmatch of [a-z][a-z0-9]* used in
pipeline._is_valid_citation_key: nonempty, first char a lowercase letter,
remaining chars lowercase alphanumeric. -/
def matchesCitationPattern (s : String) : Bool :=
  match s.data with
  | [] => false
  | c :: rest => isLowerAlpha c && rest.all isLowerAlnum

mutual

/-- Python repr of a PyVal (str escaping inside containers is simplified:
the values the pipeline converts with str() are plain strings, for which
str(x) is the identity and repr is never taken). -/
def pyRepr : PyVal → String
  | .pyNone => "None"
  | .pyBool b => if b then "True" else "False"
  | .pyInt n => toString n
  | .pyStr s => "'" ++ s ++ "'"
  | .pyList xs => "[" ++ pyReprList xs ++ "]"
  | .pyDict es => "\x7b" ++ pyReprDict es ++ "\x7d"

def pyReprList : List PyVal → String
  | [] => ""
  | [x] => pyRepr x
  | x :: y :: xs => pyRepr x ++ ", " ++ pyReprList (y :: xs)

def pyReprDict : List (String × PyVal) → String
  | [] => ""
  | [e] => "'" ++ e.1 ++ "': " ++ pyRepr e.2
  | e :: f :: es => "'" ++ e.1 ++ "': " ++ pyRepr e.2 ++ ", " ++ pyReprDict (f :: es)

end

/-- Python str(x): identity on strings, repr-like rendering otherwise. -/
def pyToStr : PyVal → String
  | .pyStr s => s
  | v => pyRepr v

/-- Python truthiness for PyVal (empty containers, empty strings, zero and
None are falsy). -/
def pyTruthy : PyVal → Bool
  | .pyNone => false
  | .pyBool b => b
  | .pyInt n => n != 0
  | .pyStr s => s != ""
  | .pyList xs => !xs.isEmpty
  | .pyDict es => !es.isEmpty

/-- Leftmost match of the year regex with lookarounds, scanned with the
lookbehind state prevDigit (whether the preceding character is a digit).
The pattern requires 19 or 20, two more digits, and no digit on either
side; on a match it returns the 4-digit value. Embeds re.search with the
pattern of pipeline._extract_year_candidate. -/
def findYearAux : Bool → List Char → Option Int
  | prevDigit, c1 :: c2 :: c3 :: c4 :: rest =>
    if !prevDigit &&
        ((c1 == '1' && c2 == '9') || (c1 == '2' && c2 == '0')) &&
        isAsciiDigit c3 && isAsciiDigit c4 &&
        (match rest with
         | [] => true
         | c5 :: _ => !isAsciiDigit c5) then
      some (((c1.toNat - 48) * 1000 + (c2.toNat - 48) * 100 +
             (c3.toNat - 48) * 10 + (c4.toNat - 48) : Nat) : Int)
    else
      findYearAux (isAsciiDigit c1) (c2 :: c3 :: c4 :: rest)
  | _, _ => none

/-- Embeds pipeline._extract_year_candidate: None unless the value is a
string; else the leftmost plausible 4-digit year in it. -/
def extractYearCandidate : PyVal → Option Int
  | .pyStr s => findYearAux false s.data
  | _ => none

/-- Embeds pipeline._normalize_metadata_year: when metadata.year is not an
int, replace it by the first year candidate found in the year string, the
title, the source filename, then the citation key, defaulting to 0. -/
def normalizeMetadataYear (raw : PyDict) (path : PdfPath) : PyDict :=
  match dictGet raw "metadata" with
  | .pyDict m =>
    let year := dictGet m "year"
    if isPyInt year then raw
    else
      let normalized :=
        (extractYearCandidate year <|>
         extractYearCandidate (dictGet m "title") <|>
         extractYearCandidate (.pyStr path.name) <|>
         extractYearCandidate (dictGet m "citation_key")).getD 0
      dictSet raw "metadata" (.pyDict (dictSet m "year" (.pyInt normalized)))
  | _ => raw

/-- Reserved placeholder tokens rejected by pipeline._is_valid_citation_key. -/
def citationPlaceholders : List String := ["not reported", "unknown", "n/a", "na"]

/-- Embeds pipeline._is_valid_citation_key: a string whose stripped form is
nonempty, not a reserved placeholder (case-insensitively), and fully
matches [a-z][a-z0-9]*. -/
def isValidCitationKey : PyVal → Bool
  | .pyStr s =>
    let stripped := pyStrip s
    stripped != "" && !(citationPlaceholders.contains (pyLower stripped)) &&
      matchesCitationPattern stripped
  | _ => false

/-- Maximal runs of ASCII alphanumeric characters, i.e. the nonempty tokens
produced by re.split on runs of non-alphanumeric characters (the empty
boundary tokens that re.split also yields are discarded by both callers in
the source, so they are dropped here). -/
def splitAlnumRuns (cs : List Char) : List (List Char) :=
  (cs.foldr
    (fun c acc =>
      if isAsciiAlnum c then
        match acc with
        | [] => [[c]]
        | r :: rs => (c :: r) :: rs
      else [] :: acc)
    []).filter (fun r => !r.isEmpty)

/-- Embeds pipeline._first_alnum_token: the first token containing a letter,
lowercased (the final re.sub of the source is the identity on a lowercased
alphanumeric token). -/
def firstAlnumToken (value : String) : String :=
  match (splitAlnumRuns value.data).find? (fun r => (pyLowerList r).any isLowerAlpha) with
  | some r => String.mk (pyLowerList r)
  | none => ""

/-- Embeds pipeline._author_surname_token: the last token containing a
letter, lowercased (again the final re.sub is the identity). -/
def authorSurnameToken (authorName : String) : String :=
  let tokens := ((splitAlnumRuns authorName.data).filter
    (fun r => r.any isAsciiAlpha)).map pyLowerList
  match tokens.getLast? with
  | some t => String.mk t
  | none => ""

/-- The str(year) component of pipeline._build_citation_key: the year when
it is an int (a bool is an instance of int in Python, giving True/False),
else the literal 0 substituted by the source. -/
def buildYearString (metadata : PyDict) : String :=
  match dictGet metadata "year" with
  | .pyInt n => toString n
  | .pyBool b => if b then "True" else "False"
  | _ => "0"

/-- The first-author component of pipeline._build_citation_key. -/
def buildAuthorToken (metadata : PyDict) : String :=
  match dictGet metadata "authors" with
  | .pyList (a :: _) =>
      let t := authorSurnameToken (pyToStr a)
      if t = "" then "paper" else t
  | _ => "paper"

/-- The title component of pipeline._build_citation_key: when the title is
truthy, its first letter-bearing token, consulting the filename stem (then
the default) only when that token is empty; when the title is falsy the
source uses the default directly. -/
def buildTitleToken (metadata : PyDict) (path : PdfPath) : String :=
  let title := dictGet metadata "title"
  let titleToken := if pyTruthy title then firstAlnumToken (pyToStr title) else "paper"
  if titleToken = "" then
    let fromStem := firstAlnumToken path.stem
    if fromStem = "" then "paper" else fromStem
  else titleToken

/-- Embeds pipeline._build_citation_key. -/
def buildCitationKey (metadata : PyDict) (path : PdfPath) : String :=
  pyLower (buildAuthorToken metadata ++ buildYearString metadata ++
    buildTitleToken metadata path)

/-- Embeds pipeline._normalize_citation_key. -/
def normalizeCitationKey (raw : PyDict) (path : PdfPath) : PyDict :=
  match dictGet raw "metadata" with
  | .pyDict m =>
    if isValidCitationKey (dictGet m "citation_key") then raw
    else dictSet raw "metadata"
      (.pyDict (dictSet m "citation_key" (.pyStr (buildCitationKey m path))))
  | _ => raw

/-- One normalization pass as performed at the top of every attempt of
pipeline._validate_with_schema_repair: year first, then citation key. -/
def normalizePayload (raw : PyDict) (path : PdfPath) : PyDict :=
  normalizeCitationKey (normalizeMetadataYear raw path) path

/-- Modelled from the claim wording: the year value obtained by trying the
four evidence sources in the stated order and taking the first match, else
the default 0. Compared against normalizeMetadataYear, which embeds the
source. -/
def claimNormalizedYear (m : PyDict) (path : PdfPath) : Int :=
  (([dictGet m "year", dictGet m "title", .pyStr path.name,
     dictGet m "citation_key"].filterMap extractYearCandidate).headD 0)

/-- Modelled from the claim wording: the last delimiter-separated token of
the first listed author that carries a letter, lowercased, with the default
when there are no authors or no such token. -/
def claimAuthorToken (m : PyDict) : String :=
  match dictGet m "authors" with
  | .pyList (a :: _) =>
    let toks := (splitAlnumRuns (pyToStr a).data).filter (fun r => r.any isAsciiAlpha)
    match toks.getLast? with
    | some t => String.mk (pyLowerList t)
    | none => "paper"
  | _ => "paper"

/-- Modelled from the claim wording as amended: the first letter-bearing
token of the title when the title is present and truthy, falling back to
the first letter-bearing token of the filename stem and then to the
default only when that title has no such token; when the title is missing,
null or empty, the default is used directly without consulting the stem. -/
def claimTitleTokenAmended (m : PyDict) (path : PdfPath) : String :=
  if pyTruthy (dictGet m "title") then
    let fromTitle := firstAlnumToken (pyToStr (dictGet m "title"))
    if fromTitle != "" then fromTitle
    else if firstAlnumToken path.stem != "" then firstAlnumToken path.stem
    else "paper"
  else "paper"

/-- Modelled from the claim wording as written: the first letter-bearing
token of the title, falling back to the first letter-bearing token of the
filename stem, and to the default if both are empty. -/
def claimTitleTokenAsWritten (m : PyDict) (path : PdfPath) : String :=
  let fromTitle := firstAlnumToken (pyToStr (dictGet m "title"))
  if fromTitle != "" then fromTitle
  else if firstAlnumToken path.stem != "" then firstAlnumToken path.stem
  else "paper"

lemma orElse_chain_getD (o1 o2 o3 o4 : Option Int) :
    (o1 <|> o2 <|> o3 <|> o4).getD 0 = ([o1, o2, o3, o4].filterMap id).headD 0 := by
  cases o1 <;> cases o2 <;> cases o3 <;> cases o4 <;> rfl

/-- Claim C6: for every payload whose metadata.year is not an integer, the
normalizer takes the first 4-digit year candidate from, in order, the year
string, the title, the source filename and the citation key, defaulting to
0; the example from the claim yields 2024; a payload whose year is already
an integer is left unchanged. -/
theorem c6_year_normalization :
    (∀ (raw m : PyDict) (path : PdfPath),
      dictGet raw "metadata" = .pyDict m →
      (isPyInt (dictGet m "year") = false →
        normalizeMetadataYear raw path =
          dictSet raw "metadata"
            (.pyDict (dictSet m "year" (.pyInt (claimNormalizedYear m path))))) ∧
      (isPyInt (dictGet m "year") = true → normalizeMetadataYear raw path = raw)) ∧
    (match dictGet
        (normalizeMetadataYear
          [("metadata", .pyDict
             [("year", .pyStr "not reported"), ("title", .pyStr "Untitled"),
              ("citation_key", .pyStr "x")])]
          ⟨"Doe - 2024 - Study.pdf", "Doe - 2024 - Study"⟩) "metadata" with
     | .pyDict m => dictGet m "year"
     | _ => .pyNone) = .pyInt 2024 := by
  constructor
  · intro raw m path h
    constructor
    · intro hy
      simp only [normalizeMetadataYear, h, hy, Bool.false_eq_true, if_false,
        claimNormalizedYear]
      rw [orElse_chain_getD]
      rfl
    · intro hy
      simp only [normalizeMetadataYear, h, hy, if_true]
  · rfl

/-- Witness for claim C6 at a concrete payload with a non-integer year. -/
theorem c6_year_normalization_witness :
    normalizeMetadataYear [("metadata", .pyDict [("year", .pyStr "not reported")])]
        ⟨"a.pdf", "a"⟩ =
      dictSet [("metadata", .pyDict [("year", .pyStr "not reported")])] "metadata"
        (.pyDict (dictSet [("year", .pyStr "not reported")] "year"
          (.pyInt (claimNormalizedYear [("year", .pyStr "not reported")] ⟨"a.pdf", "a"⟩)))) :=
  (c6_year_normalization.1 [("metadata", .pyDict [("year", .pyStr "not reported")])]
    [("year", .pyStr "not reported")] ⟨"a.pdf", "a"⟩ rfl).1 rfl

lemma splitAlnumRuns_ne_nil {cs r : List Char} (h : r ∈ splitAlnumRuns cs) :
    r ≠ [] := by
  unfold splitAlnumRuns at h
  have := List.mem_filter.mp h
  simpa using this.2

lemma stringMk_ne_empty {l : List Char} (h : l ≠ []) : String.mk l ≠ "" := by
  intro he
  exact h (congrArg String.data he)

lemma claimAuthorToken_eq_build (m : PyDict) :
    claimAuthorToken m = buildAuthorToken m := by
  unfold claimAuthorToken buildAuthorToken authorSurnameToken
  cases hA : dictGet m "authors" with
  | pyList xs =>
    cases xs with
    | nil => rfl
    | cons a rest =>
      simp only [List.getLast?_map]
      cases hL : ((splitAlnumRuns (pyToStr a).data).filter
          (fun r => r.any isAsciiAlpha)).getLast? with
      | none => rfl
      | some t =>
        have htmem : t ∈ (splitAlnumRuns (pyToStr a).data).filter
            (fun r => r.any isAsciiAlpha) := by
          obtain ⟨hne, he⟩ := List.mem_getLast?_eq_getLast (Option.mem_def.mpr hL)
          exact he ▸ List.getLast_mem hne
        have htne : t ≠ [] :=
          splitAlnumRuns_ne_nil (List.mem_filter.mp htmem).1
        have hlne : pyLowerList t ≠ [] := by
          intro h0
          exact htne (List.map_eq_nil_iff.mp h0)
        simp [stringMk_ne_empty hlne]
  | pyNone => rfl
  | pyBool b => rfl
  | pyInt n => rfl
  | pyStr s => rfl
  | pyDict es => rfl

lemma claimTitleTokenAmended_eq_build (m : PyDict) (path : PdfPath) :
    claimTitleTokenAmended m path = buildTitleToken m path := by
  unfold claimTitleTokenAmended buildTitleToken
  by_cases ht : pyTruthy (dictGet m "title") = true
  · simp only [ht, if_true]
    by_cases he : firstAlnumToken (pyToStr (dictGet m "title")) = ""
    · simp [he]
    · simp [he]
  · simp only [Bool.not_eq_true] at ht
    simp [ht]

/-- Claim C7 (counterexample): on a payload with invalid key, empty title,
authors Jane Doe and year 2024, processed with filename stem
Smith - Study, the code synthesizes doe2024paper, while the claim formula
(titleToken falling back to the first alphabetic token of the filename
stem when the title yields none) gives doe2024smith. -/
theorem c7_citation_key_counterexample :
    isValidCitationKey (dictGet
      [("citation_key", .pyStr "n/a"), ("title", .pyStr ""),
       ("authors", .pyList [.pyStr "Jane Doe"]), ("year", .pyInt 2024)]
      "citation_key") = false ∧
    (match dictGet (normalizeCitationKey
        [("metadata", .pyDict
          [("citation_key", .pyStr "n/a"), ("title", .pyStr ""),
           ("authors", .pyList [.pyStr "Jane Doe"]), ("year", .pyInt 2024)])]
        ⟨"Smith - Study.pdf", "Smith - Study"⟩) "metadata" with
     | .pyDict mm => dictGet mm "citation_key"
     | _ => .pyNone) = .pyStr "doe2024paper" ∧
    pyLower (claimAuthorToken
        [("citation_key", .pyStr "n/a"), ("title", .pyStr ""),
         ("authors", .pyList [.pyStr "Jane Doe"]), ("year", .pyInt 2024)] ++
      buildYearString
        [("citation_key", .pyStr "n/a"), ("title", .pyStr ""),
         ("authors", .pyList [.pyStr "Jane Doe"]), ("year", .pyInt 2024)] ++
      claimTitleTokenAsWritten
        [("citation_key", .pyStr "n/a"), ("title", .pyStr ""),
         ("authors", .pyList [.pyStr "Jane Doe"]), ("year", .pyInt 2024)]
        ⟨"Smith - Study.pdf", "Smith - Study"⟩) = "doe2024smith" ∧
    "doe2024paper" ≠ "doe2024smith" := by
  refine ⟨rfl, rfl, by decide, by decide⟩

/-- Claim C7 (amended): for every payload with an invalid citation key, the
replacement is the lowercase concatenation of authorToken, year and
titleToken, where authorToken is the last delimiter-separated letter-bearing
token of the first listed author (default when no authors), and titleToken
is the first letter-bearing token of the title when the title is present
and non-empty — consulting the filename stem and then the default only when
such a title has no letter-bearing token — and the default directly when
the title is missing or empty; the example of the claim yields
doe2024spiking. -/
theorem c7_citation_key_synthesis :
    (∀ (raw m : PyDict) (path : PdfPath),
      dictGet raw "metadata" = .pyDict m →
      isValidCitationKey (dictGet m "citation_key") = false →
      normalizeCitationKey raw path =
        dictSet raw "metadata" (.pyDict (dictSet m "citation_key"
          (.pyStr (pyLower (claimAuthorToken m ++ buildYearString m ++
            claimTitleTokenAmended m path)))))) ∧
    (match dictGet (normalizeCitationKey
        [("metadata", .pyDict
          [("citation_key", .pyStr "n/a"), ("title", .pyStr "Spiking Networks"),
           ("authors", .pyList [.pyStr "Jane Doe"]), ("year", .pyInt 2024)])]
        ⟨"paper.pdf", "paper"⟩) "metadata" with
     | .pyDict mm => dictGet mm "citation_key"
     | _ => .pyNone) = .pyStr "doe2024spiking" := by
  constructor
  · intro raw m path h hk
    rw [claimAuthorToken_eq_build, claimTitleTokenAmended_eq_build]
    unfold normalizeCitationKey
    rw [h]
    simp only [hk, Bool.false_eq_true, if_false]
    rfl
  · rfl

/-- Witness for claim C7 at a concrete payload with an invalid key. -/
theorem c7_citation_key_synthesis_witness :
    normalizeCitationKey
        [("metadata", .pyDict [("citation_key", .pyStr "n/a")])] ⟨"a.pdf", "a"⟩ =
      dictSet [("metadata", .pyDict [("citation_key", .pyStr "n/a")])] "metadata"
        (.pyDict (dictSet [("citation_key", .pyStr "n/a")] "citation_key"
          (.pyStr (pyLower (claimAuthorToken [("citation_key", .pyStr "n/a")] ++
            buildYearString [("citation_key", .pyStr "n/a")] ++
            claimTitleTokenAmended [("citation_key", .pyStr "n/a")] ⟨"a.pdf", "a"⟩))))) :=
  c7_citation_key_synthesis.1
    [("metadata", .pyDict [("citation_key", .pyStr "n/a")])]
    [("citation_key", .pyStr "n/a")] ⟨"a.pdf", "a"⟩ rfl rfl

/-- The three qualifying paper classifications of models.PaperType. -/
inductive PaperType where
  | primary
  | survey
  | commentary
deriving DecidableEq, Repr

/-- The string value of the Literal discriminator carried by each
qualifying classification. -/
def PaperType.toPyStr : PaperType → String
  | .primary => "primary"
  | .survey => "survey"
  | .commentary => "commentary"

/-- Embeds models.PaperMetadata (field types after pydantic parsing). -/
structure PaperMetadata where
  citation_key : String
  title : String
  authors : List String
  year : Int
  venue : String
  is_research_paper : Bool
  paper_type : Option PaperType
  rejection_reason : Option String
  tags : List String
deriving DecidableEq, Repr

/-- Embeds models.PaperMetadata._validate_research_gate. The check
`if not self.rejection_reason` is Python truthiness: both None and the
empty string fail it. -/
def validateResearchGate (m : PaperMetadata) : Except String PaperMetadata :=
  if m.is_research_paper then
    match m.paper_type with
    | none => .error "paper_type is required when is_research_paper=true"
    | some _ =>
      match m.rejection_reason with
      | some _ => .error "rejection_reason must be null when is_research_paper=true"
      | none => .ok m
  else
    match m.paper_type with
    | some _ => .error "paper_type must be null when is_research_paper=false"
    | none =>
      match m.rejection_reason with
      | none => .error "rejection_reason is required when is_research_paper=false"
      | some reason =>
        if reason = "" then
          .error "rejection_reason is required when is_research_paper=false"
        else .ok m

/-- Embeds models.SummaryPart1Primary (without the Literal discriminator,
which becomes the constructor tag of SummaryPart1). -/
structure SummaryPart1Primary where
  tldr : String
  problem_motivation : String
  core_contribution : String
  methods : String
  results : String
  key_takeaways : String
  limitations : String
  relevance : String
  cite_for : List String
  critical_assessment : String
  quotable_sentences : List String
  notable_findings : List String
deriving DecidableEq, Repr

/-- Embeds models.SummaryPart1Survey. -/
structure SummaryPart1Survey where
  tldr : String
  scope_coverage : String
  taxonomy_organization : String
  key_claims_narrative : String
  gaps_identified : String
  relevance : String
  cite_for : List String
  critical_assessment : String
  quotable_sentences : List String
deriving DecidableEq, Repr

/-- Embeds models.SummaryPart1Commentary. -/
structure SummaryPart1Commentary where
  tldr : String
  core_argument : String
  target_papers : String
  limitations : String
  relevance : String
  cite_for : List String
  critical_assessment : String
  quotable_sentences : List String
deriving DecidableEq, Repr

/-- Embeds models.SummaryPart1NonResearch. -/
structure SummaryPart1NonResearch where
  note : String
deriving DecidableEq, Repr

/-- Embeds the models.SummaryPart1 discriminated union. -/
inductive SummaryPart1 where
  | primary (p : SummaryPart1Primary)
  | survey (p : SummaryPart1Survey)
  | commentary (p : SummaryPart1Commentary)
  | nonResearch (p : SummaryPart1NonResearch)
deriving DecidableEq, Repr

/-- The paper_type discriminator string of a SummaryPart1 variant. -/
def SummaryPart1.paper_type : SummaryPart1 → String
  | .primary _ => "primary"
  | .survey _ => "survey"
  | .commentary _ => "commentary"
  | .nonResearch _ => "non_research"

/-- Embeds models.SummaryPart2 (the 18 SNN extraction fields). -/
structure SummaryPart2 where
  neuron_model : String
  network_architecture : String
  model_scale : String
  simulator_framework : String
  hardware_training : String
  controller_hardware_inference : String
  control_task : String
  task_type : String
  task_complexity_scale : String
  simulation_environment : String
  spike_encoding : String
  action_decoding : String
  learning_mechanism : String
  credit_assignment_scope : String
  online_vs_offline : String
  data_collection : String
  key_training_details : String
  comparison_to_baselines : String
deriving DecidableEq, Repr

/-- Embeds models.LLMResponse. -/
structure LLMResponse where
  metadata : PaperMetadata
  part1 : SummaryPart1
  part2 : Option SummaryPart2
deriving DecidableEq, Repr

/-- Embeds models.LLMResponse._validate_consistency, preserving the order
of the checks in the source. -/
def validateConsistency (r : LLMResponse) : Except String LLMResponse :=
  if r.metadata.is_research_paper = false then
    if r.part1.paper_type ≠ "non_research" then
      .error "part1.paper_type must be 'non_research' when is_research_paper=false"
    else
      match r.part2 with
      | some _ => .error "part2 must be null when is_research_paper=false"
      | none => .ok r
  else
    match r.metadata.paper_type with
    | none => .error "assertion failed: metadata.paper_type is not None"
    | some pt =>
      if r.part1.paper_type ≠ pt.toPyStr then
        .error "metadata.paper_type must match part1.paper_type"
      else if pt = .primary ∧ r.part2 = none then
        .error "part2 is required for primary papers"
      else if (pt = .survey ∨ pt = .commentary) ∧ r.part2 ≠ none then
        .error "part2 must be null for survey/commentary papers"
      else .ok r

/-- Validation of a full LLMResponse as pydantic performs it: the nested
PaperMetadata model validator first, then the outer consistency
validator. -/
def validateLLMResponse (r : LLMResponse) : Except String LLMResponse :=
  match validateResearchGate r.metadata with
  | .error e => .error e
  | .ok _ => validateConsistency r

/-- Claim C4: every response accepted by validation satisfies the
research-gate and category-consistency invariants: with the gate flag
false, the category is null, the rejection reason non-null, the part1
discriminator non_research and part2 null; with the flag true, the
category is non-null and equals the part1 discriminator, the rejection
reason is null, and part2 is present exactly for the primary category. -/
theorem c4_research_gate_consistency (r r' : LLMResponse)
    (h : validateLLMResponse r = .ok r') :
    (r.metadata.is_research_paper = false →
      r.metadata.paper_type = none ∧
      r.metadata.rejection_reason ≠ none ∧
      r.part1.paper_type = "non_research" ∧
      r.part2 = none) ∧
    (r.metadata.is_research_paper = true →
      ∃ pt, r.metadata.paper_type = some pt ∧
        r.part1.paper_type = pt.toPyStr ∧
        r.metadata.rejection_reason = none ∧
        (r.part2 ≠ none ↔ pt = .primary)) := by
  unfold validateLLMResponse validateResearchGate validateConsistency at h
  constructor
  · intro hflag
    rw [hflag] at h
    simp only [Bool.false_eq_true, if_false, if_pos] at h
    cases hp : r.metadata.paper_type with
    | some pt => simp [hp] at h
    | none =>
      simp only [hp] at h
      cases hrr : r.metadata.rejection_reason with
      | none => simp [hrr] at h
      | some reason =>
        simp only [hrr] at h
        by_cases hre : reason = ""
        · simp [hre] at h
        · simp only [hre, if_false] at h
          by_cases h1 : r.part1.paper_type = "non_research"
          · simp only [h1, ne_eq, not_true_eq_false, if_false] at h
            cases hp2 : r.part2 with
            | some p2 => simp [hp2] at h
            | none => exact ⟨rfl, by simp, h1, rfl⟩
          · simp [h1] at h
  · intro hflag
    rw [hflag] at h
    simp only [Bool.true_eq_false, if_false, if_true] at h
    cases hp : r.metadata.paper_type with
    | none => simp [hp] at h
    | some pt =>
      simp only [hp] at h
      cases hrr : r.metadata.rejection_reason with
      | some reason => simp [hrr] at h
      | none =>
        simp only [hrr] at h
        by_cases h1 : r.part1.paper_type = pt.toPyStr
        · simp only [h1, ne_eq, not_true_eq_false, if_false] at h
          refine ⟨pt, rfl, h1, rfl, ?_⟩
          cases pt <;> cases hp2 : r.part2 <;> simp [hp2] at h ⊢
        · simp [h1] at h

/-- Witness for claim C4 at a concrete non-research response accepted by
validation. -/
theorem c4_research_gate_consistency_witness :
    ((⟨⟨"doe2024x", "T", ["A"], 2024, "V", false, none, some "not a paper", []⟩,
       .nonResearch ⟨"slides"⟩, none⟩ : LLMResponse).metadata.paper_type = none ∧
     (⟨⟨"doe2024x", "T", ["A"], 2024, "V", false, none, some "not a paper", []⟩,
       .nonResearch ⟨"slides"⟩, none⟩ : LLMResponse).part2 = none) := by
  have h := c4_research_gate_consistency
    ⟨⟨"doe2024x", "T", ["A"], 2024, "V", false, none, some "not a paper", []⟩,
      .nonResearch ⟨"slides"⟩, none⟩
    ⟨⟨"doe2024x", "T", ["A"], 2024, "V", false, none, some "not a paper", []⟩,
      .nonResearch ⟨"slides"⟩, none⟩ rfl
  exact ⟨(h.1 rfl).1, (h.1 rfl).2.2.2⟩

lemma char_toNat_ofNat {n : Nat} (h : n.isValidChar) : (Char.ofNat n).toNat = n := by
  unfold Char.ofNat
  rw [dif_pos h]
  unfold Char.ofNatAux Char.toNat
  simp [UInt32.toNat]

lemma pyCharLower_of_lower {c : Char} (h : isLowerAlnum c = true) :
    pyCharLower c = c := by
  unfold isLowerAlnum isAsciiDigit isLowerAlpha at h
  unfold pyCharLower
  rw [if_neg]
  simp only [Bool.or_eq_true, decide_eq_true_eq] at h
  omega

lemma pyCharLower_lowerAlnum {c : Char} (h : isAsciiAlnum c = true) :
    isLowerAlnum (pyCharLower c) = true := by
  unfold isAsciiAlnum isAsciiDigit isAsciiAlpha at h
  simp only [Bool.or_eq_true, Bool.and_eq_true, decide_eq_true_eq] at h
  unfold pyCharLower
  by_cases hu : 65 ≤ c.toNat ∧ c.toNat ≤ 90
  · rw [if_pos hu]
    have hv : (c.toNat + 32).isValidChar := by
      unfold Nat.isValidChar
      omega
    unfold isLowerAlnum isAsciiDigit isLowerAlpha
    simp only [char_toNat_ofNat hv, Bool.or_eq_true, decide_eq_true_eq]
    omega
  · rw [if_neg hu]
    unfold isLowerAlnum isAsciiDigit isLowerAlpha
    simp only [Bool.or_eq_true, decide_eq_true_eq]
    omega

lemma lowerAlnum_alnum {c : Char} (h : isLowerAlnum c = true) :
    isAsciiAlnum c = true := by
  unfold isLowerAlnum isAsciiDigit isLowerAlpha at h
  unfold isAsciiAlnum isAsciiDigit isAsciiAlpha
  simp only [Bool.or_eq_true, Bool.and_eq_true, decide_eq_true_eq] at h ⊢
  omega

lemma foldr_alnum_runs (cs : List Char) :
    ∀ r ∈ cs.foldr
      (fun c acc =>
        if isAsciiAlnum c then
          match acc with
          | [] => [[c]]
          | r :: rs => (c :: r) :: rs
        else [] :: acc) [],
      ∀ ch ∈ r, isAsciiAlnum ch = true := by
  induction cs with
  | nil => intro r hr; cases hr
  | cons c cs ih =>
    intro r hr ch hch
    rw [List.foldr_cons] at hr
    by_cases hc : isAsciiAlnum c = true
    · rw [if_pos hc] at hr
      cases hacc : cs.foldr
          (fun c acc =>
            if isAsciiAlnum c then
              match acc with
              | [] => [[c]]
              | r :: rs => (c :: r) :: rs
            else [] :: acc) [] with
      | nil =>
        rw [hacc] at hr
        simp only [List.mem_singleton] at hr
        subst hr
        rcases List.mem_singleton.mp hch with rfl
        exact hc
      | cons r0 rs =>
        rw [hacc] at hr
        rcases List.mem_cons.mp hr with rfl | hmem
        · rcases List.mem_cons.mp hch with rfl | hch0
          · exact hc
          · exact ih r0 (hacc ▸ List.mem_cons_self r0 rs) ch hch0
        · exact ih r (hacc ▸ List.mem_cons_of_mem r0 hmem) ch hch
    · rw [if_neg hc] at hr
      rcases List.mem_cons.mp hr with rfl | hmem
      · cases hch
      · exact ih r hmem ch hch

lemma splitAlnumRuns_all_alnum {cs r : List Char} (hr : r ∈ splitAlnumRuns cs) :
    ∀ ch ∈ r, isAsciiAlnum ch = true := by
  unfold splitAlnumRuns at hr
  exact foldr_alnum_runs cs r (List.mem_filter.mp hr).1

lemma firstAlnumToken_chars (v : String) :
    ∀ c ∈ (firstAlnumToken v).data, isLowerAlnum c = true := by
  unfold firstAlnumToken
  cases hf : (splitAlnumRuns v.data).find?
      (fun r => (pyLowerList r).any isLowerAlpha) with
  | none => intro c hc; cases hc
  | some r =>
    intro c hc
    have hrm : r ∈ splitAlnumRuns v.data := List.mem_of_find?_eq_some hf
    obtain ⟨c0, hc0, rfl⟩ := List.mem_map.mp hc
    exact pyCharLower_lowerAlnum (splitAlnumRuns_all_alnum hrm c0 hc0)

lemma paper_chars_lower : ∀ c ∈ ("paper" : String).data, isLowerAlnum c = true := by
  decide

lemma paper_ne_empty : ("paper" : String) ≠ "" := by
  decide

lemma buildAuthorToken_chars (m : PyDict) :
    ∀ c ∈ (buildAuthorToken m).data, isLowerAlnum c = true := by
  unfold buildAuthorToken authorSurnameToken
  cases hA : dictGet m "authors" with
  | pyList xs =>
    cases xs with
    | nil => exact paper_chars_lower
    | cons a rest =>
      simp only
      cases hL : (((splitAlnumRuns (pyToStr a).data).filter
          (fun r => r.any isAsciiAlpha)).map pyLowerList).getLast? with
      | none => exact paper_chars_lower
      | some t =>
        obtain ⟨hne, he⟩ := List.mem_getLast?_eq_getLast (Option.mem_def.mpr hL)
        have htm : t ∈ ((splitAlnumRuns (pyToStr a).data).filter
            (fun r => r.any isAsciiAlpha)).map pyLowerList :=
          he ▸ List.getLast_mem hne
        obtain ⟨r0, hr0, rfl⟩ := List.mem_map.mp htm
        have hr0' : r0 ∈ splitAlnumRuns (pyToStr a).data :=
          (List.mem_filter.mp hr0).1
        by_cases hte : String.mk (pyLowerList r0) = ""
        · simp only [hte, if_pos]
          exact paper_chars_lower
        · rw [if_neg hte]
          intro c hc
          obtain ⟨c0, hc0, rfl⟩ := List.mem_map.mp hc
          exact pyCharLower_lowerAlnum (splitAlnumRuns_all_alnum hr0' c0 hc0)
  | pyNone => exact paper_chars_lower
  | pyBool b => exact paper_chars_lower
  | pyInt n => exact paper_chars_lower
  | pyStr s => exact paper_chars_lower
  | pyDict es => exact paper_chars_lower

lemma buildAuthorToken_ne (m : PyDict) : buildAuthorToken m ≠ "" := by
  unfold buildAuthorToken authorSurnameToken
  cases hA : dictGet m "authors" with
  | pyList xs =>
    cases xs with
    | nil => exact paper_ne_empty
    | cons a rest =>
      simp only
      cases hL : (((splitAlnumRuns (pyToStr a).data).filter
          (fun r => r.any isAsciiAlpha)).map pyLowerList).getLast? with
      | none => exact paper_ne_empty
      | some t =>
        by_cases hte : String.mk t = ""
        · simp only [hte, if_pos]
          exact paper_ne_empty
        · rw [if_neg hte]
          exact hte
  | pyNone => exact paper_ne_empty
  | pyBool b => exact paper_ne_empty
  | pyInt n => exact paper_ne_empty
  | pyStr s => exact paper_ne_empty
  | pyDict es => exact paper_ne_empty

lemma buildTitleToken_chars (m : PyDict) (path : PdfPath) :
    ∀ c ∈ (buildTitleToken m path).data, isLowerAlnum c = true := by
  unfold buildTitleToken
  by_cases ht : pyTruthy (dictGet m "title") = true
  · simp only [ht, if_pos]
    by_cases he : firstAlnumToken (pyToStr (dictGet m "title")) = ""
    · simp only [he, if_pos]
      by_cases hs : firstAlnumToken path.stem = ""
      · simp only [hs, if_pos]
        exact paper_chars_lower
      · simp only [hs, if_neg, if_false]
        exact firstAlnumToken_chars path.stem
    · simp only [he, if_neg, if_false]
      exact firstAlnumToken_chars (pyToStr (dictGet m "title"))
  · simp only [Bool.not_eq_true] at ht
    simp only [ht, Bool.false_eq_true, if_false]
    simp only [paper_ne_empty, if_neg, if_false]
    exact paper_chars_lower

lemma buildTitleToken_ne (m : PyDict) (path : PdfPath) :
    buildTitleToken m path ≠ "" := by
  unfold buildTitleToken
  by_cases ht : pyTruthy (dictGet m "title") = true
  · simp only [ht, if_pos]
    by_cases he : firstAlnumToken (pyToStr (dictGet m "title")) = ""
    · simp only [he, if_pos]
      by_cases hs : firstAlnumToken path.stem = ""
      · simp [hs]
      · simp only [hs, if_neg, if_false]
        exact hs
    · simp only [he, if_neg, if_false]
      exact he
  · simp only [Bool.not_eq_true] at ht
    simp only [ht, Bool.false_eq_true, if_false]
    simp only [paper_ne_empty, if_neg, if_false]
    exact paper_ne_empty

lemma digitChar_isDigit {m : Nat} (h : m < 10) :
    isAsciiDigit (Nat.digitChar m) = true := by
  interval_cases m <;> decide

lemma toDigitsCore_digits :
    ∀ (fuel n : Nat) (ds : List Char),
      (∀ c ∈ ds, isAsciiDigit c = true) →
      ∀ c ∈ Nat.toDigitsCore 10 fuel n ds, isAsciiDigit c = true := by
  intro fuel
  induction fuel with
  | zero => intro n ds h c hc; exact h c hc
  | succ fuel ih =>
    intro n ds h c hc
    unfold Nat.toDigitsCore at hc
    by_cases hz : n / 10 = 0
    · rw [if_pos hz] at hc
      rcases List.mem_cons.mp hc with rfl | hmem
      · exact digitChar_isDigit (Nat.mod_lt n (by norm_num))
      · exact h c hmem
    · rw [if_neg hz] at hc
      refine ih (n / 10) (Nat.digitChar (n % 10) :: ds) ?_ c hc
      intro c' hc'
      rcases List.mem_cons.mp hc' with rfl | hmem
      · exact digitChar_isDigit (Nat.mod_lt n (by norm_num))
      · exact h c' hmem

lemma natRepr_digits (n : Nat) :
    ∀ c ∈ (Nat.repr n).data, isAsciiDigit c = true := by
  intro c hc
  unfold Nat.repr Nat.toDigits at hc
  exact toDigitsCore_digits (n + 1) n [] (by intro c' hc'; cases hc') c hc

lemma intRepr_digits {n : Int} (h : 0 ≤ n) :
    ∀ c ∈ (toString n).data, isAsciiDigit c = true := by
  cases n with
  | ofNat m => exact natRepr_digits m
  | negSucc m => exact absurd h (by simp)

lemma yearLiteral_chars_alnum :
    (∀ c ∈ ("True" : String).data, isAsciiAlnum c = true) ∧
    (∀ c ∈ ("False" : String).data, isAsciiAlnum c = true) ∧
    (∀ c ∈ ("0" : String).data, isAsciiAlnum c = true) := by
  refine ⟨by decide, by decide, by decide⟩

lemma buildYearString_alnum (m : PyDict)
    (hy : ∀ n, dictGet m "year" = .pyInt n → 0 ≤ n) :
    ∀ c ∈ (buildYearString m).data, isAsciiAlnum c = true := by
  unfold buildYearString
  cases hv : dictGet m "year" with
  | pyInt n =>
    intro c hc
    have hd := intRepr_digits (hy n hv) c hc
    unfold isAsciiAlnum
    simp [hd]
  | pyBool b =>
    cases b
    · exact yearLiteral_chars_alnum.2.1
    · exact yearLiteral_chars_alnum.1
  | pyNone => exact yearLiteral_chars_alnum.2.2
  | pyStr s => exact yearLiteral_chars_alnum.2.2
  | pyList xs => exact yearLiteral_chars_alnum.2.2
  | pyDict es => exact yearLiteral_chars_alnum.2.2

lemma buildCitationKey_matches (m : PyDict) (path : PdfPath)
    (hy : ∀ n, dictGet m "year" = .pyInt n → 0 ≤ n)
    (ha : isLowerAlpha ((buildAuthorToken m).data.headD '0') = true) :
    matchesCitationPattern (buildCitationKey m path) = true := by
  obtain ⟨c, rest, hA⟩ : ∃ c rest, (buildAuthorToken m).data = c :: rest := by
    cases hAd : (buildAuthorToken m).data with
    | nil =>
      exact absurd (by cases hAe : buildAuthorToken m; simp_all) (buildAuthorToken_ne m)
    | cons c rest => exact ⟨c, rest, rfl⟩
  unfold buildCitationKey pyLower matchesCitationPattern pyLowerList
  simp only [String.data_append, hA]
  simp only [List.cons_append, List.map_cons]
  have hcA : c ∈ (buildAuthorToken m).data := by rw [hA]; exact List.mem_cons_self _ _
  have hcl : isLowerAlnum c = true := buildAuthorToken_chars m c hcA
  have hid : pyCharLower c = c := pyCharLower_of_lower hcl
  rw [hid]
  have hha : isLowerAlpha c = true := by
    rw [hA] at ha
    simpa using ha
  rw [hha]
  simp only [Bool.true_and, List.all_eq_true]
  intro lc hlc
  obtain ⟨c0, hc0, rfl⟩ := List.mem_map.mp hlc
  rcases List.mem_append.mp hc0 with hc1 | hcT
  · rcases List.mem_append.mp hc1 with hcA' | hcY
    · exact pyCharLower_lowerAlnum (lowerAlnum_alnum
        (buildAuthorToken_chars m c0 (by rw [hA]; exact List.mem_cons_of_mem _ hcA')))
    · exact pyCharLower_lowerAlnum (buildYearString_alnum m hy c0 hcY)
  · exact pyCharLower_lowerAlnum (lowerAlnum_alnum
      (buildTitleToken_chars m path c0 hcT))

lemma isValidCitationKey_props {s : String}
    (h : isValidCitationKey (.pyStr s) = true) :
    pyStrip s ≠ "" ∧
    citationPlaceholders.contains (pyLower (pyStrip s)) = false ∧
    matchesCitationPattern (pyStrip s) = true := by
  unfold isValidCitationKey at h
  simp only [Bool.and_eq_true, bne_iff_ne, ne_eq, Bool.not_eq_true'] at h
  exact ⟨h.1.1, h.1.2, h.2⟩

/-- Claim C5 (counterexample): the key with surrounding whitespace is
accepted unchanged by the normalizer (its stripped form matches the
pattern, but the value itself does not), and schema validation accepts a
response carrying it, so a terminal Result can hold a citation key that
violates the strict pattern. -/
theorem c5_citation_key_counterexample :
    isValidCitationKey (.pyStr " abc ") = true ∧
    normalizeCitationKey
        [("metadata", .pyDict [("citation_key", .pyStr " abc ")])] ⟨"a.pdf", "a"⟩ =
      [("metadata", .pyDict [("citation_key", .pyStr " abc ")])] ∧
    matchesCitationPattern " abc " = false ∧
    validateLLMResponse
        ⟨⟨" abc ", "T", ["A"], 2024, "V", false, none, some "not a paper", []⟩,
          .nonResearch ⟨"slides"⟩, none⟩ =
      .ok ⟨⟨" abc ", "T", ["A"], 2024, "V", false, none, some "not a paper", []⟩,
        .nonResearch ⟨"slides"⟩, none⟩ :=
  ⟨by decide, rfl, by decide, rfl⟩

/-- Claim C5 (amended): after citation-key normalization the key is either
kept unchanged — which happens exactly when its whitespace-stripped form is
nonempty, not a reserved placeholder, and matches [a-z][a-z0-9]* (the
unstripped value may carry surrounding whitespace) — or replaced by the
synthesized key; the synthesized key matches the pattern whenever the
author token begins with a lowercase letter and the payload year, when an
integer, is non-negative. Schema validation does not re-check the
pattern. -/
theorem c5_terminal_citation_key :
    (∀ (raw m : PyDict) (path : PdfPath),
      dictGet raw "metadata" = .pyDict m →
      (isValidCitationKey (dictGet m "citation_key") = true →
        normalizeCitationKey raw path = raw ∧
        ∀ s, dictGet m "citation_key" = .pyStr s →
          pyStrip s ≠ "" ∧
          citationPlaceholders.contains (pyLower (pyStrip s)) = false ∧
          matchesCitationPattern (pyStrip s) = true) ∧
      (isValidCitationKey (dictGet m "citation_key") = false →
        normalizeCitationKey raw path =
          dictSet raw "metadata" (.pyDict (dictSet m "citation_key"
            (.pyStr (buildCitationKey m path)))))) ∧
    (∀ (m : PyDict) (path : PdfPath),
      (∀ n, dictGet m "year" = .pyInt n → 0 ≤ n) →
      isLowerAlpha ((buildAuthorToken m).data.headD '0') = true →
      matchesCitationPattern (buildCitationKey m path) = true) := by
  constructor
  · intro raw m path h
    constructor
    · intro hv
      constructor
      · unfold normalizeCitationKey
        rw [h]
        simp [hv]
      · intro s hs
        rw [hs] at hv
        exact isValidCitationKey_props hv
    · intro hv
      unfold normalizeCitationKey
      rw [h]
      simp [hv]
  · intro m path hy ha
    exact buildCitationKey_matches m path hy ha

/-- Witness for claim C5 at a concrete payload whose synthesized key is
well-formed. -/
theorem c5_terminal_citation_key_witness :
    matchesCitationPattern (buildCitationKey
      [("authors", .pyList [.pyStr "Jane Doe"]), ("year", .pyInt 2024),
       ("title", .pyStr "Spiking Networks")] ⟨"paper.pdf", "paper"⟩) = true :=
  c5_terminal_citation_key.2
    [("authors", .pyList [.pyStr "Jane Doe"]), ("year", .pyInt 2024),
     ("title", .pyStr "Spiking Networks")] ⟨"paper.pdf", "paper"⟩
    (by intro n hn; injection hn with hh; omega) (by decide)

/-- Model of the JSON values produced by json.loads. Numbers are kept as
their lexeme (no claim inspects numeric values; Python would map them to
int or float). Object fields keep insertion order; a duplicate key
overwrites the value in place, as a CPython dict does. -/
inductive Json where
  | jnull
  | jbool (b : Bool)
  | jnum (lexeme : String)
  | jstr (s : String)
  | jarr (xs : List Json)
  | jobj (fields : List (String × Json))

/-- JSON whitespace as accepted by the json module scanner. -/
def isJsonWs (c : Char) : Bool := c = ' ' ∨ c = '\t' ∨ c = '\n' ∨ c = '\r'

/-- Skip leading JSON whitespace. -/
def skipJsonWs (cs : List Char) : List Char := cs.dropWhile isJsonWs

/-- One hexadecimal digit of a uXXXX escape. -/
def parseHexDigit (c : Char) : Option Nat :=
  if isAsciiDigit c then some (c.toNat - 48)
  else if 97 ≤ c.toNat ∧ c.toNat ≤ 102 then some (c.toNat - 87)
  else if 65 ≤ c.toNat ∧ c.toNat ≤ 70 then some (c.toNat - 55)
  else none

/-- Body of a JSON string after the opening quote, unescaping as the json
module does in strict mode (unescaped control characters are rejected;
surrogate-pair recombination is not modelled — no pipeline string uses
it). -/
def parseStringBody : List Char → List Char → Except String (String × List Char)
  | _, [] => .error "Unterminated string"
  | acc, c :: rest =>
    if c = '"' then .ok (String.mk acc.reverse, rest)
    else if c = '\\' then
      match rest with
      | [] => .error "Unterminated string"
      | e :: rest2 =>
        if e = '"' then parseStringBody ('"' :: acc) rest2
        else if e = '\\' then parseStringBody ('\\' :: acc) rest2
        else if e = '/' then parseStringBody ('/' :: acc) rest2
        else if e = 'b' then parseStringBody ('\x08' :: acc) rest2
        else if e = 'f' then parseStringBody ('\x0c' :: acc) rest2
        else if e = 'n' then parseStringBody ('\n' :: acc) rest2
        else if e = 'r' then parseStringBody ('\r' :: acc) rest2
        else if e = 't' then parseStringBody ('\t' :: acc) rest2
        else if e = 'u' then
          match rest2 with
          | h1 :: h2 :: h3 :: h4 :: rest3 =>
            match parseHexDigit h1, parseHexDigit h2, parseHexDigit h3,
                parseHexDigit h4 with
            | some d1, some d2, some d3, some d4 =>
              parseStringBody
                (Char.ofNat (d1 * 4096 + d2 * 256 + d3 * 16 + d4) :: acc) rest3
            | _, _, _, _ => .error "Invalid uXXXX escape"
          | _ => .error "Invalid uXXXX escape"
        else .error "Invalid escape"
    else if c.toNat < 32 then .error "Invalid control character"
    else parseStringBody (c :: acc) rest

/-- Lexeme of a JSON number, following the json module NUMBER_RE: optional
minus, integer part without leading zeros, optional fraction, optional
exponent. The regex simply stops before any trailing junk. -/
def parseNumberLex (cs : List Char) : Except String (String × List Char) :=
  let (negPart, cs1) :=
    match cs with
    | '-' :: rest => (['-'], rest)
    | _ => (([] : List Char), cs)
  match cs1 with
  | [] => .error "Expecting value"
  | c :: rest =>
    if c = '0' ∨ ¬ (isAsciiDigit c = true) then
      if c = '0' then
        let (fracPart, rest2) := splitFrac rest
        let (expPart, rest3) := splitExp rest2
        .ok (String.mk (negPart ++ ['0'] ++ fracPart ++ expPart), rest3)
      else .error "Expecting value"
    else
      let intPart := c :: rest.takeWhile isAsciiDigit
      let restI := rest.dropWhile isAsciiDigit
      let (fracPart, rest2) := splitFrac restI
      let (expPart, rest3) := splitExp rest2
      .ok (String.mk (negPart ++ intPart ++ fracPart ++ expPart), rest3)
where
  splitFrac (cs : List Char) : List Char × List Char :=
    match cs with
    | '.' :: rest =>
      let ds := rest.takeWhile isAsciiDigit
      if ds.isEmpty then ([], '.' :: rest)
      else ('.' :: ds, rest.dropWhile isAsciiDigit)
    | _ => ([], cs)
  splitExp (cs : List Char) : List Char × List Char :=
    match cs with
    | e :: rest =>
      if e = 'e' ∨ e = 'E' then
        match rest with
        | s :: rest2 =>
          if s = '+' ∨ s = '-' then
            let ds := rest2.takeWhile isAsciiDigit
            if ds.isEmpty then ([], e :: s :: rest2)
            else (e :: s :: ds, rest2.dropWhile isAsciiDigit)
          else
            let ds := rest.takeWhile isAsciiDigit
            if ds.isEmpty then ([], e :: rest)
            else (e :: ds, rest.dropWhile isAsciiDigit)
        | [] => ([], [e])
      else ([], e :: rest)
    | [] => ([], [])

/-- CPython dict insertion for object members: a duplicate key replaces
the value in place, otherwise the pair is appended. -/
def objInsert (fields : List (String × Json)) (k : String) (v : Json) :
    List (String × Json) :=
  if fields.any (fun e => e.1 = k) then
    fields.map (fun e => if e.1 = k then (k, v) else e)
  else fields ++ [(k, v)]

mutual

/-- Fuel-indexed recursive-descent parser for one JSON value, modelling the
json module scanner (including its NaN/Infinity constants). Returns the
value and the unconsumed rest. -/
def parseValue : Nat → List Char → Except String (Json × List Char)
  | 0, _ => .error "fuel exhausted"
  | fuel + 1, cs =>
    match skipJsonWs cs with
    | [] => .error "Expecting value"
    | c :: rest =>
      if c = '\x7b' then parseObjFields fuel rest []
      else if c = '[' then parseArrElems fuel rest []
      else if c = '"' then
        match parseStringBody [] rest with
        | .error e => .error e
        | .ok (s, rest2) => .ok (.jstr s, rest2)
      else if c = 't' then
        match rest with
        | 'r' :: 'u' :: 'e' :: rest2 => .ok (.jbool true, rest2)
        | _ => .error "Expecting value"
      else if c = 'f' then
        match rest with
        | 'a' :: 'l' :: 's' :: 'e' :: rest2 => .ok (.jbool false, rest2)
        | _ => .error "Expecting value"
      else if c = 'n' then
        match rest with
        | 'u' :: 'l' :: 'l' :: rest2 => .ok (.jnull, rest2)
        | _ => .error "Expecting value"
      else if c = 'N' then
        match rest with
        | 'a' :: 'N' :: rest2 => .ok (.jnum "NaN", rest2)
        | _ => .error "Expecting value"
      else if c = 'I' then
        match rest with
        | 'n' :: 'f' :: 'i' :: 'n' :: 'i' :: 't' :: 'y' :: rest2 =>
          .ok (.jnum "Infinity", rest2)
        | _ => .error "Expecting value"
      else if c = '-' then
        match rest with
        | 'I' :: 'n' :: 'f' :: 'i' :: 'n' :: 'i' :: 't' :: 'y' :: rest2 =>
          .ok (.jnum "-Infinity", rest2)
        | _ =>
          match parseNumberLex (c :: rest) with
          | .error e => .error e
          | .ok (lex, rest2) => .ok (.jnum lex, rest2)
      else if isAsciiDigit c then
        match parseNumberLex (c :: rest) with
        | .error e => .error e
        | .ok (lex, rest2) => .ok (.jnum lex, rest2)
      else .error "Expecting value"

/-- Members of a JSON object after the opening brace or a comma; acc holds
the members parsed so far. -/
def parseObjFields : Nat → List Char → List (String × Json) →
    Except String (Json × List Char)
  | 0, _, _ => .error "fuel exhausted"
  | fuel + 1, cs, acc =>
    match skipJsonWs cs with
    | '\x7d' :: rest =>
      if acc.isEmpty then .ok (.jobj [], rest)
      else .error "Expecting property name enclosed in double quotes"
    | '"' :: rest =>
      match parseStringBody [] rest with
      | .error e => .error e
      | .ok (key, rest2) =>
        match skipJsonWs rest2 with
        | ':' :: rest4 =>
          match parseValue fuel rest4 with
          | .error e => .error e
          | .ok (v, rest5) =>
            match skipJsonWs rest5 with
            | '\x7d' :: rest7 => .ok (.jobj (objInsert acc key v), rest7)
            | ',' :: rest7 => parseObjFields fuel rest7 (objInsert acc key v)
            | _ => .error "Expecting , delimiter"
        | _ => .error "Expecting : delimiter"
    | _ => .error "Expecting property name enclosed in double quotes"

/-- Elements of a JSON array after the opening bracket or a comma. -/
def parseArrElems : Nat → List Char → List Json →
    Except String (Json × List Char)
  | 0, _, _ => .error "fuel exhausted"
  | fuel + 1, cs, acc =>
    match skipJsonWs cs with
    | ']' :: rest =>
      if acc.isEmpty then .ok (.jarr [], rest)
      else .error "Expecting value"
    | cs1 =>
      match parseValue fuel cs1 with
      | .error e => .error e
      | .ok (v, rest2) =>
        match skipJsonWs rest2 with
        | ']' :: rest4 => .ok (.jarr (acc ++ [v]), rest4)
        | ',' :: rest4 => parseArrElems fuel rest4 (acc ++ [v])
        | _ => .error "Expecting , delimiter"

end

/-- Embeds json.loads: parse one value and require only whitespace after
it, else the Extra data error. -/
def jsonLoads (s : String) : Except String Json :=
  match parseValue (s.data.length + 2) s.data with
  | .error e => .error e
  | .ok (v, rest) =>
    if (skipJsonWs rest).isEmpty then .ok v else .error "Extra data"

/-- The two failure modes of llm._extract_json: no brace pair found, or
json.loads rejecting the candidate substring. -/
inductive DecodeErr where
  | noJsonFound (snippet : String)
  | jsonParseFailed (msg : String)
deriving DecidableEq, Repr

/-- Index of the first opening brace, as str.find returns it. -/
def findFirstBrace (cs : List Char) : Option Nat :=
  cs.findIdx? (fun c => c = '\x7b')

/-- Index of the last closing brace, as str.rfind returns it. -/
def findLastBrace (cs : List Char) : Option Nat :=
  (cs.reverse.findIdx? (fun c => c = '\x7d')).map (fun i => cs.length - 1 - i)

/-- Embeds llm._extract_json: take the substring from the first opening
brace to the last closing brace inclusive (empty when the bounds cross, as
Python slicing gives) and run json.loads on it. -/
def extractJson (text : String) : Except DecodeErr Json :=
  match findFirstBrace text.data, findLastBrace text.data with
  | some start, some stop =>
    (match jsonLoads (String.mk ((text.data.drop start).take (stop + 1 - start))) with
     | .ok v => .ok v
     | .error e => .error (.jsonParseFailed e))
  | _, _ => .error (.noJsonFound (String.mk (text.data.take 200)))

/-- Result of the decode section of llm.call_llm together with the number
of repair sub-calls issued. -/
structure DecodeTrace where
  result : Except DecodeErr Json
  repairCalls : Nat

/-- Embeds the decode section of llm.call_llm: extract JSON from the raw
text; on failure issue exactly one repair sub-call (llm._repair_json_once,
modelled as an oracle from the bad text to either a reply or a raised
exception of type e), decode the reply, and on any failure raise the
original parse error. -/
def decodeWithRepair {e : Type} (repairCall : String → Except e String)
    (text : String) : DecodeTrace :=
  match extractJson text with
  | .ok v => ⟨.ok v, 0⟩
  | .error parseExc =>
    match repairCall text with
    | .error _ => ⟨.error parseExc, 1⟩
    | .ok repaired =>
      match extractJson repaired with
      | .ok v => ⟨.ok v, 1⟩
      | .error _ => ⟨.error parseExc, 1⟩

lemma findIdx?_append_of_first (p : Char → Bool) :
    ∀ (pre rest : List Char), (∀ c ∈ pre, p c = false) →
      (∃ c cs, rest = c :: cs ∧ p c = true) →
      (pre ++ rest).findIdx? p = some pre.length := by
  intro pre
  induction pre with
  | nil =>
    rintro rest hpre ⟨c, cs, rfl, hc⟩
    simp [List.findIdx?_cons, hc]
  | cons a pre ih =>
    intro rest hpre hr
    have ha : p a = false := hpre a (List.mem_cons_self _ _)
    rw [List.cons_append, List.findIdx?_cons, ha]
    simp only [Bool.false_eq_true, if_false, List.findIdx?_succ]
    rw [ih rest (fun c hc => hpre c (List.mem_cons_of_mem _ hc)) hr]
    rfl

lemma findFirstBrace_concat {pre mid post : List Char}
    (hpre : ∀ c ∈ pre, (c = '\x7b' : Bool) = false)
    (hmid : ∃ cs, mid = '\x7b' :: cs) :
    findFirstBrace (pre ++ mid ++ post) = some pre.length := by
  obtain ⟨cs, rfl⟩ := hmid
  unfold findFirstBrace
  rw [List.append_assoc]
  exact findIdx?_append_of_first _ pre _ hpre ⟨'\x7b', cs ++ post, by simp⟩

lemma findLastBrace_concat {pre mid post : List Char}
    (hpost : ∀ c ∈ post, (c = '\x7d' : Bool) = false)
    (hmid : ∃ cs, mid = cs ++ ['\x7d']) :
    findLastBrace (pre ++ mid ++ post) = some (pre.length + mid.length - 1) := by
  obtain ⟨cs, rfl⟩ := hmid
  unfold findLastBrace
  have hrev : (pre ++ (cs ++ ['\x7d']) ++ post).reverse =
      post.reverse ++ ('\x7d' :: (cs.reverse ++ pre.reverse)) := by
    simp
  rw [hrev]
  rw [findIdx?_append_of_first _ post.reverse _
    (fun c hc => hpost c (List.mem_reverse.mp hc))
    ⟨'\x7d', cs.reverse ++ pre.reverse, rfl, by simp⟩]
  simp only [Option.map_some, List.length_reverse, List.length_append,
    List.length_cons, Option.some.injEq]
  simp
  omega

/-- Claim C2: for every raw text whose JSON extraction fails, exactly one
repair sub-call is made, and whether the repair call raises or its reply
fails to decode, the error surfaced is the original parse error of the
first decode attempt. -/
theorem c2_decode_repair_original_error {e : Type} :
    ∀ (repairCall : String → Except e String) (text : String) (err : DecodeErr),
      extractJson text = .error err →
      (decodeWithRepair repairCall text).repairCalls = 1 ∧
      (∀ exc, repairCall text = .error exc →
        (decodeWithRepair repairCall text).result = .error err) ∧
      (∀ rep err2, repairCall text = .ok rep → extractJson rep = .error err2 →
        (decodeWithRepair repairCall text).result = .error err) := by
  intro repairCall text err h
  have hred : decodeWithRepair repairCall text =
      (match repairCall text with
       | .error _ => ⟨.error err, 1⟩
       | .ok repaired =>
         match extractJson repaired with
         | .ok v => ⟨.ok v, 1⟩
         | .error _ => ⟨.error err, 1⟩) := by
    unfold decodeWithRepair
    rw [h]
  refine ⟨?_, ?_, ?_⟩
  · rw [hred]
    cases hr : repairCall text with
    | error exc => rfl
    | ok rep => cases he : extractJson rep <;> simp only [he]
  · intro exc hexc
    rw [hred, hexc]
  · intro rep err2 hrep he2
    rw [hred, hrep]
    simp only [he2]

/-- Witness for claim C2 at a raw text with no JSON object and a repair
call that raises. -/
theorem c2_decode_repair_witness :
    (decodeWithRepair (fun _ => (.error () : Except Unit String)) "garbage").repairCalls = 1 ∧
    (decodeWithRepair (fun _ => (.error () : Except Unit String)) "garbage").result =
      .error (.noJsonFound "garbage") :=
  have h := c2_decode_repair_original_error
    (fun _ => (.error () : Except Unit String)) "garbage" (.noJsonFound "garbage") rfl
  ⟨h.1, h.2.1 () rfl⟩

/-- Claim C10: when the text contains both braces but the last closing
brace precedes the first opening brace, extraction takes the empty
candidate substring, raises the JSON-parse-failure error (never the
no-JSON-object-found error), and the one-shot repair path is triggered. -/
theorem c10_reversed_braces_parse_error :
    ∀ (text : String) (i j : Nat),
      findFirstBrace text.data = some i →
      findLastBrace text.data = some j →
      j < i →
      extractJson text = .error (.jsonParseFailed "Expecting value") ∧
      (∀ s, extractJson text ≠ .error (.noJsonFound s)) ∧
      (∀ (e : Type) (repairCall : String → Except e String),
        (decodeWithRepair repairCall text).repairCalls = 1) := by
  intro text i j hf hl hji
  have hext : extractJson text = .error (.jsonParseFailed "Expecting value") := by
    unfold extractJson
    rw [hf, hl]
    dsimp only
    have hz : j + 1 - i = 0 := by omega
    rw [hz]
    rfl
  refine ⟨hext, ?_, ?_⟩
  · intro s hcontra
    rw [hext] at hcontra
    cases hcontra
  · intro e repairCall
    unfold decodeWithRepair
    rw [hext]
    cases hr : repairCall text with
    | error exc => rfl
    | ok rep => cases he : extractJson rep <;> simp only [he]

/-- Witness for claim C10 at the text with a closing brace before an
opening brace. -/
theorem c10_reversed_braces_witness :
    extractJson "\x7d\x7b" = .error (.jsonParseFailed "Expecting value") ∧
    (decodeWithRepair (fun _ => (.error () : Except Unit String)) "\x7d\x7b").repairCalls = 1 :=
  have h := c10_reversed_braces_parse_error "\x7d\x7b" 1 0 rfl rfl (by omega)
  ⟨h.1, h.2.2 Unit (fun _ => .error ())⟩

/-- Claim C9 (counterexample): the object text decodes alone, but with a
trailing close brace appended as prose the candidate spans to that brace
and json.loads rejects it, so decoding does not recover the object. -/
theorem c9_decode_tolerance_counterexample :
    jsonLoads "\x7b\"a\":1\x7d" = .ok (.jobj [("a", .jnum "1")]) ∧
    extractJson "\x7b\"a\":1\x7d\x7d" = .error (.jsonParseFailed "Extra data") ∧
    extractJson "\x7b\"a\":1\x7d\x7d" ≠ .ok (.jobj [("a", .jnum "1")]) := by
  refine ⟨rfl, rfl, ?_⟩
  intro hcontra
  cases hcontra

/-- Claim C9 (amended): for every text that json.loads decodes to an
object, starting with an opening brace and ending with a closing brace,
embedded in leading prose containing no opening brace and trailing prose
containing no closing brace (as markdown fences and ordinary prose are),
decoding the combined text recovers exactly that object, because the
candidate substring from the first opening to the last closing brace is
exactly the object text. -/
theorem c9_decode_tolerance :
    ∀ (pre s post : String) (obj : Json),
      (∀ c ∈ pre.data, (c = '\x7b' : Bool) = false) →
      (∀ c ∈ post.data, (c = '\x7d' : Bool) = false) →
      (∃ cs, s.data = '\x7b' :: cs) →
      (∃ cs, s.data = cs ++ ['\x7d']) →
      jsonLoads s = .ok obj →
      extractJson (pre ++ s ++ post) = .ok obj := by
  intro pre s post obj hpre hpost hhead hlast hparse
  unfold extractJson
  have hdata : (pre ++ s ++ post).data = pre.data ++ s.data ++ post.data := by
    simp [String.data_append]
  rw [hdata]
  rw [findFirstBrace_concat hpre hhead, findLastBrace_concat hpost hlast]
  dsimp only
  have hlen : 1 ≤ s.data.length := by
    obtain ⟨cs, hcs⟩ := hhead
    rw [hcs]
    simp
  have harith : pre.data.length + s.data.length - 1 + 1 - pre.data.length =
      s.data.length := by omega
  rw [harith]
  have hdrop : (pre.data ++ s.data ++ post.data).drop pre.data.length =
      s.data ++ post.data := by
    rw [List.append_assoc]
    exact List.drop_left pre.data (s.data ++ post.data)
  rw [hdrop, List.take_left' rfl]
  have hmk : jsonLoads (String.mk s.data) = .ok obj := hparse
  rw [hmk]

/-- Witness for claim C9 at a concrete object surrounded by prose. -/
theorem c9_decode_tolerance_witness :
    extractJson ("NOTE: " ++ "\x7b\"a\":1\x7d" ++ " done.") =
      .ok (.jobj [("a", .jnum "1")]) :=
  c9_decode_tolerance "NOTE: " "\x7b\"a\":1\x7d" " done." (.jobj [("a", .jnum "1")])
    (by decide) (by decide) ⟨"\"a\":1\x7d".data, rfl⟩ ⟨"\x7b\"a\":1".data, rfl⟩ rfl

/-- Model of an exception as llm._extract_status_code inspects it: the
optional integer attributes status_code, status and code, plus str(exc).
An attribute that is absent or not an integer is modelled as none. -/
structure PyExc where
  status_code : Option Int
  status : Option Int
  code : Option Int
  message : String
deriving DecidableEq, Repr

/-- Case-insensitive match of a lowercase literal at the head of the
input, returning the rest on success. -/
def matchLitCI : List Char → List Char → Option (List Char)
  | [], cs => some cs
  | _ :: _, [] => none
  | l :: ls, c :: cs => if pyCharLower c = l then matchLitCI ls cs else none

/-- Three decimal digits, as the capture group of the status patterns
requires; a fourth digit may follow without invalidating the match. -/
def matchDigits3 : List Char → Option Int
  | d1 :: d2 :: d3 :: _ =>
    if isAsciiDigit d1 && isAsciiDigit d2 && isAsciiDigit d3 then
      some (((d1.toNat - 48) * 100 + (d2.toNat - 48) * 10 + (d3.toNat - 48) : Nat) : Int)
    else none
  | _ => none

/-- First message pattern of llm._extract_status_code (the literal Error
code with a colon, optional whitespace, three digits), case-insensitively,
tried at one start position. -/
def matchErrorCodeAt (cs : List Char) : Option Int :=
  match matchLitCI "error code:".data cs with
  | some rest => matchDigits3 (rest.dropWhile isPySpace)
  | none => none

/-- Second message pattern of llm._extract_status_code (the literal
status, an optional whitespace-separated literal code, whitespace, a colon
or equals sign, whitespace, three digits), case-insensitively, tried at
one start position; the optional group is greedy with backtracking. -/
def matchStatusAt (cs : List Char) : Option Int :=
  match matchLitCI "status".data cs with
  | some rest =>
    let tailMatch := fun (cs2 : List Char) =>
      match cs2.dropWhile isPySpace with
      | c :: cs3 =>
        if c = ':' ∨ c = '=' then matchDigits3 (cs3.dropWhile isPySpace)
        else none
      | [] => none
    match matchLitCI "code".data (rest.dropWhile isPySpace) with
    | some rest2 =>
      match tailMatch rest2 with
      | some n => some n
      | none => tailMatch rest
    | none => tailMatch rest
  | none => none

/-- re.search as the leftmost start position at which the one-position
matcher succeeds. -/
def searchFrom (f : List Char → Option Int) : List Char → Option Int
  | [] => f []
  | c :: cs =>
    match f (c :: cs) with
    | some n => some n
    | none => searchFrom f cs

/-- Embeds llm._extract_status_code: the attributes status_code and status
first, then a range-checked code attribute, then the two message
patterns in order. -/
def extractStatusCode (e : PyExc) : Option Int :=
  match e.status_code with
  | some v => some v
  | none =>
    match e.status with
    | some v => some v
    | none =>
      let fromMessage :=
        match searchFrom matchErrorCodeAt e.message.data with
        | some n => some n
        | none => searchFrom matchStatusAt e.message.data
      match e.code with
      | some v => if 100 ≤ v ∧ v ≤ 599 then some v else fromMessage
      | none => fromMessage

/-- Embeds llm._is_retryable_status_error: status 429, or any 5xx. -/
def isRetryableStatusError (e : PyExc) : Bool :=
  match extractStatusCode e with
  | some code =>
    if code = 429 then true
    else if 500 ≤ code ∧ code ≤ 599 then true
    else false
  | none => false

/-- Embeds llm._retry_delay_seconds; the float it returns is exact for
these arguments and is modelled as a natural number of seconds. -/
def retryDelaySeconds (attempt : Nat) : Nat := 2 ^ (attempt - 1)

/-- Failure of llm._complete_with_retries: an LLMError wrapping the
exception of the raising attempt, or the unreachable raise after the
loop. -/
inductive LlmCallErr where
  | callFailed (cause : PyExc)
  | exhaustedUnreachable
deriving DecidableEq, Repr

/-- Result of llm._complete_with_retries together with the backoff sleeps
performed before each retry, in order. -/
structure RetryTrace where
  result : Except LlmCallErr String
  sleeps : List Nat

/-- The loop of llm._complete_with_retries over an oracle giving the
outcome of each 1-indexed attempt; remaining is the number of loop
iterations left, so the current attempt is attempts - remaining when one
more iteration is entered, and the raise branch triggers when the budget
is exhausted (remaining = 0 after this attempt) or the error is not
retryable. -/
def completeRetryGo (complete : Nat → Except PyExc String) (attempts : Nat) :
    Nat → RetryTrace
  | 0 => ⟨.error .exhaustedUnreachable, []⟩
  | remaining + 1 =>
    let attempt := attempts - remaining
    match complete attempt with
    | .ok text => ⟨.ok text, []⟩
    | .error exc =>
      if remaining = 0 ∨ isRetryableStatusError exc = false then
        ⟨.error (.callFailed exc), []⟩
      else
        let rest := completeRetryGo complete attempts remaining
        ⟨rest.result, retryDelaySeconds attempt :: rest.sleeps⟩

/-- Embeds llm._complete_with_retries with the source budget of 2
transient retries, hence 3 total attempts. -/
def completeWithRetries (complete : Nat → Except PyExc String) : RetryTrace :=
  completeRetryGo complete 3 3

/-- Claim C3: an error is retryable exactly when its extracted status
(from attributes or message patterns) is 429 or 5xx; at most 2 retries are
made with sleeps of exactly 1 then 2 seconds (2 to the power attempt-1);
two retryable failures then a success succeed on the third attempt; a
non-retryable error fails immediately wrapping its cause; three retryable
failures exhaust the budget and fail wrapping the third cause. -/
theorem c3_completion_retry_policy :
    (∀ exc : PyExc, isRetryableStatusError exc = true ↔
      (∃ code, extractStatusCode exc = some code ∧
        (code = 429 ∨ (500 ≤ code ∧ code ≤ 599)))) ∧
    (∀ complete : Nat → Except PyExc String,
      (completeWithRetries complete).sleeps.length ≤ 2 ∧
      (completeWithRetries complete).sleeps =
        [retryDelaySeconds 1, retryDelaySeconds 2].take
          (completeWithRetries complete).sleeps.length ∧
      (completeWithRetries complete).result ≠ .error .exhaustedUnreachable) ∧
    (∀ (complete : Nat → Except PyExc String) e1 e2 txt,
      complete 1 = .error e1 → isRetryableStatusError e1 = true →
      complete 2 = .error e2 → isRetryableStatusError e2 = true →
      complete 3 = .ok txt →
      completeWithRetries complete = ⟨.ok txt, [1, 2]⟩) ∧
    (∀ (complete : Nat → Except PyExc String) e1,
      complete 1 = .error e1 → isRetryableStatusError e1 = false →
      completeWithRetries complete = ⟨.error (.callFailed e1), []⟩) ∧
    (∀ (complete : Nat → Except PyExc String) e1 e2,
      complete 1 = .error e1 → isRetryableStatusError e1 = true →
      complete 2 = .error e2 → isRetryableStatusError e2 = false →
      completeWithRetries complete = ⟨.error (.callFailed e2), [1]⟩) ∧
    (∀ (complete : Nat → Except PyExc String) e1 e2 e3,
      complete 1 = .error e1 → isRetryableStatusError e1 = true →
      complete 2 = .error e2 → isRetryableStatusError e2 = true →
      complete 3 = .error e3 →
      completeWithRetries complete = ⟨.error (.callFailed e3), [1, 2]⟩) := by
  refine ⟨?_, ?_, ?_, ?_, ?_, ?_⟩
  · intro exc
    unfold isRetryableStatusError
    cases hc : extractStatusCode exc with
    | none => simp
    | some code =>
      by_cases h429 : code = 429
      · simp [h429]
      · by_cases h5xx : 500 ≤ code ∧ code ≤ 599
        · simp [h429, h5xx]
        · simp [h429, h5xx]
  · intro complete
    unfold completeWithRetries completeRetryGo
    cases h1 : complete 1 with
    | ok txt => simp [h1]
    | error e1 =>
      cases r1 : isRetryableStatusError e1 with
      | false => simp [h1, r1]
      | true =>
        simp only [h1, r1]
        unfold completeRetryGo
        cases h2 : complete 2 with
        | ok txt => simp [h2, retryDelaySeconds]
        | error e2 =>
          cases r2 : isRetryableStatusError e2 with
          | false => simp [h2, r2, retryDelaySeconds]
          | true =>
            simp only [h2, r2]
            unfold completeRetryGo
            cases h3 : complete 3 with
            | ok txt => simp [h3, retryDelaySeconds]
            | error e3 => simp [h3, retryDelaySeconds]
  · intro complete e1 e2 txt h1 r1 h2 r2 h3
    unfold completeWithRetries completeRetryGo
    simp only [h1, r1]
    unfold completeRetryGo
    simp only [h2, r2]
    unfold completeRetryGo
    simp only [h3]
    simp [retryDelaySeconds]
  · intro complete e1 h1 r1
    unfold completeWithRetries completeRetryGo
    simp [h1, r1]
  · intro complete e1 e2 h1 r1 h2 r2
    unfold completeWithRetries completeRetryGo
    simp only [h1, r1]
    unfold completeRetryGo
    simp only [h2, r2]
    simp [retryDelaySeconds]
  · intro complete e1 e2 e3 h1 r1 h2 r2 h3
    unfold completeWithRetries completeRetryGo
    simp only [h1, r1]
    unfold completeRetryGo
    simp only [h2, r2]
    unfold completeRetryGo
    simp only [h3]
    simp [retryDelaySeconds]

/-- Witness for claim C3: a 429 (from the status_code attribute), then a
500 (pattern-matched from the message text), then success: the call
succeeds on the third attempt after sleeping 1 then 2 seconds. -/
theorem c3_completion_retry_witness :
    completeWithRetries
        (fun n =>
          if n = 1 then .error ⟨some 429, none, none, "Too Many Requests"⟩
          else if n = 2 then .error ⟨none, none, none, "Error code: 500 - upstream"⟩
          else .ok "done") =
      ⟨.ok "done", [1, 2]⟩ :=
  c3_completion_retry_policy.2.2.1
    (fun n =>
      if n = 1 then .error ⟨some 429, none, none, "Too Many Requests"⟩
      else if n = 2 then .error ⟨none, none, none, "Error code: 500 - upstream"⟩
      else .ok "done")
    ⟨some 429, none, none, "Too Many Requests"⟩
    ⟨none, none, none, "Error code: 500 - upstream"⟩ "done"
    rfl (by decide) rfl (by decide) rfl

/-- Failure of pipeline._validate_with_schema_repair: the re-raised
pydantic ValidationError of the final attempt, or the unreachable
RuntimeError after the loop. -/
inductive SchemaLoopErr (E : Type) where
  | validation (e : E)
  | exhaustedUnreachable

/-- Result of pipeline._validate_with_schema_repair together with the
payloads submitted to validation (in order) and the number of repair
calls issued. -/
structure SchemaRepairTrace (E R : Type) where
  result : Except (SchemaLoopErr E) R
  validated : List PyDict
  repairCalls : Nat

/-- The loop of pipeline._validate_with_schema_repair: at each attempt the
current payload is normalized (year, then citation key), validated
(validate stands for constructing the pydantic LLMResponse), and on
failure either re-raised (final attempt) or replaced by the payload that
the repair call of the round returns (repair stands for llm.call_llm on the repair
prompt of the round, indexed 1 and 2). remaining counts the loop
iterations left of the attempts budget. -/
def schemaRepairGo {E R : Type} (validate : PyDict → Except E R)
    (repair : Nat → PyDict) (path : PdfPath) (attempts : Nat) :
    Nat → PyDict → SchemaRepairTrace E R
  | 0, _ => ⟨.error .exhaustedUnreachable, [], 0⟩
  | remaining + 1, current =>
    let current1 := normalizePayload current path
    match validate current1 with
    | .ok r => ⟨.ok r, [current1], 0⟩
    | .error e =>
      if remaining = 0 then ⟨.error (.validation e), [current1], 0⟩
      else
        let rest := schemaRepairGo validate repair path attempts remaining
          (repair (attempts - remaining))
        ⟨rest.result, current1 :: rest.validated, rest.repairCalls + 1⟩

/-- Embeds pipeline._validate_with_schema_repair with the source budget of
_MAX_SCHEMA_REPAIR_RETRIES = 2 repair rounds, hence 3 attempts. -/
def validateWithSchemaRepair {E R : Type} (validate : PyDict → Except E R)
    (repair : Nat → PyDict) (path : PdfPath) (raw : PyDict) :
    SchemaRepairTrace E R :=
  schemaRepairGo validate repair path 3 3 raw

/-- Claim C1: the loop validates at most 3 payloads (one more than the
repair calls, of which there are at most 2); every validated payload is
the year-then-citation-key normalization of the current payload (the raw
one, then each repair reply in order); and the loop fails exactly when all
three attempts fail, surfacing precisely the validation error of the
third attempt; the unreachable final raise is indeed unreachable. -/
theorem c1_schema_repair_loop :
    ∀ (E R : Type) (validate : PyDict → Except E R) (repair : Nat → PyDict)
      (path : PdfPath) (raw : PyDict),
      (validateWithSchemaRepair validate repair path raw).validated.length ≤ 3 ∧
      (validateWithSchemaRepair validate repair path raw).repairCalls + 1 =
        (validateWithSchemaRepair validate repair path raw).validated.length ∧
      (validateWithSchemaRepair validate repair path raw).validated =
        ([raw, repair 1, repair 2].take
          (validateWithSchemaRepair validate repair path raw).validated.length).map
          (fun p => normalizePayload p path) ∧
      (∀ e, (validateWithSchemaRepair validate repair path raw).result =
          .error (.validation e) ↔
        ((∃ e1, validate (normalizePayload raw path) = .error e1) ∧
         (∃ e2, validate (normalizePayload (repair 1) path) = .error e2) ∧
         validate (normalizePayload (repair 2) path) = .error e)) ∧
      (validateWithSchemaRepair validate repair path raw).result ≠
        .error .exhaustedUnreachable := by
  intro E R validate repair path raw
  unfold validateWithSchemaRepair schemaRepairGo
  cases h1 : validate (normalizePayload raw path) with
  | ok r => simp [h1]
  | error e1 =>
    simp only [h1]
    unfold schemaRepairGo
    cases h2 : validate (normalizePayload (repair 1) path) with
    | ok r => simp [h1, h2]
    | error e2 =>
      simp only [h2]
      unfold schemaRepairGo
      cases h3 : validate (normalizePayload (repair 2) path) with
      | ok r => simp [h1, h2, h3]
      | error e3 => simp [h1, h2, h3]

/-- Witness for claim C1 at a validator that always fails: the loop
surfaces exactly the final validation error. -/
theorem c1_schema_repair_loop_witness :
    (validateWithSchemaRepair (fun _ => (.error "bad" : Except String Unit))
        (fun _ => []) ⟨"a.pdf", "a"⟩ []).result = .error (.validation "bad") :=
  ((c1_schema_repair_loop String Unit (fun _ => .error "bad") (fun _ => [])
      ⟨"a.pdf", "a"⟩ []).2.2.2.1 "bad").mpr ⟨⟨"bad", rfl⟩, ⟨"bad", rfl⟩, rfl⟩

/-- Python string slicing s[:n] for a non-negative character budget. -/
def strTake (s : String) (n : Nat) : String := String.mk (s.data.take n)

/-- Outcome of one parser.parse_pdf call: the returned text or error, the
cache sidecar content afterwards, and whether the extraction engine was
invoked. -/
structure ParsePdfOutcome (e : Type) where
  result : Except e String
  cache : Option String
  engineInvoked : Bool

/-- The fresh-extraction path of parser.parse_pdf: run the engine; on
success write the full untruncated text to the cache and return the
truncated text; on failure leave the cache as it was. -/
def freshExtract {e : Type} (cache : Option String) (extract : Except e String)
    (maxChars : Nat) : ParsePdfOutcome e :=
  match extract with
  | .ok text => ⟨.ok (strTake text maxChars), some text, true⟩
  | .error err => ⟨.error err, cache, true⟩

/-- Embeds parser.parse_pdf over an abstract extraction engine outcome
(the docling/pypdf dispatch of parser._extract_text is external to the
claims). The cache is the sidecar content: none when the file does not
exist, and the empty string models a zero-byte file, since the source
condition stat st_size > 0 fails exactly then. -/
def parsePdf {e : Type} (cache : Option String) (extract : Except e String)
    (maxChars : Nat) (reparse : Bool) : ParsePdfOutcome e :=
  match cache with
  | some cached =>
    if reparse = false ∧ 0 < cached.length then
      ⟨.ok (strTake cached maxChars), some cached, false⟩
    else
      freshExtract cache extract maxChars
  | none => freshExtract cache extract maxChars

lemma string_length_pos_iff (s : String) : 0 < s.length ↔ s ≠ "" := by
  cases s with
  | mk data =>
    cases data with
    | nil => simp [String.length]
    | cons c cs =>
      simp only [String.length]
      constructor
      · intro _ h
        have := congrArg String.data h
        simp at this
      · intro _
        simp

/-- Claim C8: the cache is used (the engine not invoked) exactly when
reparse is false and the sidecar exists with non-zero size; on a hit the
cached text truncated to the budget is returned and the cache is
untouched; on a miss the engine runs, a successful extraction writes the
full text to the cache and returns it truncated, and a failed extraction
leaves the cache unchanged. -/
theorem c8_extraction_cache :
    ∀ (e : Type) (cache : Option String) (extract : Except e String)
      (maxChars : Nat) (reparse : Bool),
      ((parsePdf cache extract maxChars reparse).engineInvoked = false ↔
        (reparse = false ∧ ∃ c, cache = some c ∧ c ≠ "")) ∧
      (∀ c, reparse = false → cache = some c → c ≠ "" →
        parsePdf cache extract maxChars reparse =
          ⟨.ok (strTake c maxChars), some c, false⟩) ∧
      (∀ txt, (reparse = true ∨ cache = none ∨ cache = some "") →
        extract = .ok txt →
        parsePdf cache extract maxChars reparse =
          ⟨.ok (strTake txt maxChars), some txt, true⟩) ∧
      (∀ err, (reparse = true ∨ cache = none ∨ cache = some "") →
        extract = .error err →
        parsePdf cache extract maxChars reparse = ⟨.error err, cache, true⟩) := by
  intro e cache extract maxChars reparse
  refine ⟨?_, ?_, ?_, ?_⟩
  · cases cache with
    | none =>
      unfold parsePdf freshExtract
      cases extract <;> simp
    | some c =>
      unfold parsePdf
      dsimp only
      by_cases hcond : reparse = false ∧ 0 < c.length
      · rw [if_pos hcond]
        simp only [true_iff]
        exact ⟨hcond.1, c, rfl, (string_length_pos_iff c).mp hcond.2⟩
      · rw [if_neg hcond]
        unfold freshExtract
        have : ¬ (reparse = false ∧ ∃ c2, some c = some c2 ∧ c2 ≠ "") := by
          rintro ⟨hr, c2, hc2, hne⟩
          injection hc2 with hc2
          subst hc2
          exact hcond ⟨hr, (string_length_pos_iff c).mpr hne⟩
        cases extract <;> simp [this] <;> intro hr <;> by_contra hne <;>
          exact hcond ⟨hr, (string_length_pos_iff c).mpr hne⟩
  · intro c hr hc hne
    subst hc
    unfold parsePdf
    dsimp only
    rw [if_pos ⟨hr, (string_length_pos_iff c).mpr hne⟩]
  · intro txt hmiss hok
    subst hok
    cases cache with
    | none => rfl
    | some c =>
      unfold parsePdf
      dsimp only
      rw [if_neg ?_]
      · rfl
      · rintro ⟨hr, hlen⟩
        rcases hmiss with hrep | hnone | hempty
        · rw [hr] at hrep; cases hrep
        · cases hnone
        · injection hempty with hempty
          subst hempty
          simp [String.length] at hlen
  · intro err hmiss herr
    subst herr
    cases cache with
    | none => rfl
    | some c =>
      unfold parsePdf
      dsimp only
      rw [if_neg ?_]
      · rfl
      · rintro ⟨hr, hlen⟩
        rcases hmiss with hrep | hnone | hempty
        · rw [hr] at hrep; cases hrep
        · cases hnone
        · injection hempty with hempty
          subst hempty
          simp [String.length] at hlen

/-- Witness for claim C8: a cache hit returns the truncated cached text
without invoking the engine, and a zero-byte cache is a miss that runs the
engine and overwrites the cache. -/
theorem c8_extraction_cache_witness :
    parsePdf (some "cached text") (.ok "fresh" : Except Unit String) 6 false =
      ⟨.ok (strTake "cached text" 6), some "cached text", false⟩ ∧
    parsePdf (some "") (.ok "fresh" : Except Unit String) 6 false =
      ⟨.ok (strTake "fresh" 6), some "fresh", true⟩ :=
  ⟨(c8_extraction_cache Unit (some "cached text") (.ok "fresh") 6 false).2.1
      "cached text" rfl rfl (by decide),
   (c8_extraction_cache Unit (some "") (.ok "fresh") 6 false).2.2.1
      "fresh" (Or.inr (Or.inr rfl)) rfl⟩

end PaperSummarizer
